import Mathlib

/-!
Verification of the Mospi survey platform core against its specification.

The development shallowly embeds the Python source:
- `validators.py` (`_coerce_area`, `validate_and_fix_survey`),
- `json_utils.py` (`extract_json`),
- the response-session logic shared by `app2.py` and `main.py`
  (`generate_adaptive_questions`, `calculate_quality_score`, and the
  Submit handler of `show_take_survey`).

JSON-shaped Python values are modelled by the inductive type `PyVal`;
Python dicts are association lists with string keys in insertion order
(assignment replaces in place, `setdefault` appends), matching the
ordered-dict semantics observable through the functions under study.
Python exceptions are modelled by `Except`.  Numeric scores use `ℚ`
(exact arithmetic; every concrete constant appearing in the scorer is
exactly representable and the claims at issue are rounding-insensitive).
Case folding is modelled on ASCII letters, which covers every string
the normaliser compares case-insensitively.
-/

/-- JSON-shaped Python runtime values as consumed and produced by the
survey pipeline. -/
inductive PyVal where
  | none
  | bool (b : Bool)
  | int (n : Int)
  | str (s : String)
  | list (xs : List PyVal)
  | dict (kvs : List (String × PyVal))
deriving Repr

/-- Python truthiness (`bool(v)`) for the modelled values. -/
def pyTruthy : PyVal → Bool
  | PyVal.none => false
  | PyVal.bool b => b
  | PyVal.int n => n ≠ 0
  | PyVal.str s => s ≠ ""
  | PyVal.list xs => ¬xs.isEmpty
  | PyVal.dict kvs => ¬kvs.isEmpty

mutual

/-- Python `==` on the modelled values (structural; across the shapes the
pipeline actually compares, Python equality is structural as well). -/
def pyBeq : PyVal → PyVal → Bool
  | PyVal.none, PyVal.none => true
  | PyVal.bool a, PyVal.bool b => a = b
  | PyVal.int a, PyVal.int b => a = b
  | PyVal.str a, PyVal.str b => a = b
  | PyVal.list a, PyVal.list b => pyBeqList a b
  | PyVal.dict a, PyVal.dict b => pyBeqKvs a b
  | _, _ => false

/-- Elementwise Python `==` on lists. -/
def pyBeqList : List PyVal → List PyVal → Bool
  | [], [] => true
  | a :: as', b :: bs' => pyBeq a b && pyBeqList as' bs'
  | _, _ => false

/-- Python `==` on dict entry lists. -/
def pyBeqKvs : List (String × PyVal) → List (String × PyVal) → Bool
  | [], [] => true
  | (ka, va) :: as', (kb, vb) :: bs' => ka = kb && pyBeq va vb && pyBeqKvs as' bs'
  | _, _ => false

end

/-- Python `x in xs` for a list, via `==`. -/
def pyMem (v : PyVal) (xs : List PyVal) : Bool :=
  xs.any (fun x => pyBeq v x)

/-- Embedding of `d.get(k)` on an ordered dict: the value bound to the first (unique in
real Python dicts) occurrence of `k`, if any. -/
def pyGet (d : List (String × PyVal)) (k : String) : Option PyVal :=
  match d with
  | [] => Option.none
  | (k', v) :: rest => if k' = k then some v else pyGet rest k

/-- Embedding of `d[k] = v`: replace the binding in place if the key is present,
otherwise append it. -/
def pySet (d : List (String × PyVal)) (k : String) (v : PyVal) :
    List (String × PyVal) :=
  match d with
  | [] => [(k, v)]
  | (k', v') :: rest =>
      if k' = k then (k, v) :: rest else (k', v') :: pySet rest k v

/-- Embedding of `d.setdefault(k, v)`: leave the dict unchanged when the key is
present, otherwise append the binding. -/
def pySetdefault (d : List (String × PyVal)) (k : String) (v : PyVal) :
    List (String × PyVal) :=
  if (pyGet d k).isSome then d else d ++ [(k, v)]

/-- Characters Python's `str.strip()` removes (ASCII whitespace). -/
def isPySpace (c : Char) : Bool :=
  c = ' ' ∨ c = '\t' ∨ c = '\n' ∨ c = '\r' ∨ c = '\x0b' ∨ c = '\x0c'

/-- Embedding of `s.strip()`. -/
def pyStrip (s : String) : String :=
  String.mk (((s.data.dropWhile isPySpace).reverse.dropWhile isPySpace).reverse)

/-- Embedding of `s.lower()` (ASCII case folding). -/
def pyLower (s : String) : String :=
  String.mk (s.data.map Char.toLower)

/-- Character-list prefix test (the second argument is the candidate
leading segment). -/
def listStartsWith : List Char → List Char → Bool
  | _, [] => true
  | [], _ :: _ => false
  | c :: cs, p :: ps => (c = p) && listStartsWith cs ps

/-- Embedding of `s.startswith(pre)`. -/
def strStartsWith (s pre : String) : Bool :=
  listStartsWith s.data pre.data

/-- Python exceptions reachable from the embedded code. -/
inductive PyErr where
  | attributeError
  | typeError
deriving Repr, DecidableEq

/-- Embedding of `_coerce_area` from `validators.py`: `a = (area or "").strip().lower()`,
prefix-match `rur`/`urb`, else `return area or "Rural"`.  Calling `.strip()`
on a truthy non-string raises `AttributeError`. -/
def coerceArea (area : PyVal) : Except PyErr PyVal :=
  match (if pyTruthy area then area else PyVal.str "") with
  | PyVal.str s =>
      let a := pyLower (pyStrip s)
      if strStartsWith a "rur" then Except.ok (PyVal.str "Rural")
      else if strStartsWith a "urb" then Except.ok (PyVal.str "Urban")
      else Except.ok (if pyTruthy area then area else PyVal.str "Rural")
  | _ => Except.error PyErr.attributeError

/-- The set `VALID_TYPES` from `validators.py`. -/
def validTypes : List String :=
  ["open-ended", "single-choice", "multiple-choice", "rating"]

/-- Embedding of `qtype in VALID_TYPES` (non-strings are never members). -/
def isValidType : PyVal → Bool
  | PyVal.str s => validTypes.contains s
  | _ => false

/-- Embedding of `qtype in CHOICE_TYPES` from `validators.py`. -/
def isChoice : PyVal → Bool
  | PyVal.str s => s = "single-choice" ∨ s = "multiple-choice"
  | _ => false

/-- The generic fallback option pool `["Yes", "No", "Not sure"]`. -/
def optionPool : List PyVal :=
  [PyVal.str "Yes", PyVal.str "No", PyVal.str "Not sure"]

/-- One iteration of the padding loop of `validate_and_fix_survey`:
append the pool entry unless three options are already reached or it is
already present. -/
def padStep (acc : List PyVal) (o : PyVal) : List PyVal :=
  if acc.length ≥ 3 then acc
  else if pyMem o acc then acc else acc ++ [o]

/-- The padding loop of `validate_and_fix_survey`: append pool entries not
already present until three options are reached. -/
def padOptions (opts : List PyVal) : List PyVal :=
  optionPool.foldl padStep opts

/-- The option-repair block of the choice branch: `or []`, the
`isinstance` test, padding below three entries and truncation above
six. -/
def fixChoiceOpts (optsRaw : PyVal) : List PyVal :=
  let opts0 := if pyTruthy optsRaw then optsRaw else PyVal.list []
  match opts0 with
  | PyVal.list xs =>
      let padded := if xs.length < 3 then padOptions xs else xs
      if padded.length > 6 then padded.take 6 else padded
  | _ => optionPool

/-- The body of the per-question loop of `validate_and_fix_survey`
(`i` is the 1-based position used by `_ensure_id`).  `dict(q)` raises on
the non-mapping entry shapes JSON survey data can contain (Python would
additionally accept a sequence of key-value pairs, a shape the modelled
pipeline never produces; such entries are conservatively mapped to the
error case as well). -/
def fixQuestion (i : Nat) (q : PyVal) :
    Except PyErr (List (String × PyVal)) :=
  match q with
  | PyVal.dict kvs =>
      let q1 := pySetdefault kvs "id" (PyVal.str ("q" ++ toString i))
      let q2 := pySetdefault q1 "text" (PyVal.str "")
      let qtypeRaw := (pyGet q2 "type").getD (PyVal.str "open-ended")
      let qtype := if isValidType qtypeRaw then qtypeRaw
                   else PyVal.str "open-ended"
      let q3 := pySet q2 "type" qtype
      if isChoice qtype then
        let opts := fixChoiceOpts ((pyGet q3 "options").getD PyVal.none)
        Except.ok (pySet q3 "options" (PyVal.list opts))
      else
        Except.ok (pySet q3 "options" PyVal.none)
  | _ => Except.error PyErr.typeError

/-- The `for i, q in enumerate(questions, start=1)` loop, threading the
1-based index and propagating the first exception. -/
def fixQuestions : Nat → List PyVal → Except PyErr (List (List (String × PyVal)))
  | _, [] => Except.ok []
  | i, q :: rest => do
      let q' ← fixQuestion i q
      let rest' ← fixQuestions (i + 1) rest
      Except.ok (q' :: rest')

/-- The three leading `setdefault` lines of `validate_and_fix_survey`
(`title` from `domain` or "Survey", `domain` "General", `region`
"Unknown"). -/
def vafsDefaults (data : List (String × PyVal)) : List (String × PyVal) :=
  pySetdefault
    (pySetdefault
      (pySetdefault data "title" ((pyGet data "domain").getD (PyVal.str "Survey")))
      "domain" (PyVal.str "General"))
    "region" (PyVal.str "Unknown")

/-- Embedding of `validate_and_fix_survey` from `validators.py`, on an already-parsed
mapping.  Exception propagation is written as explicit matches on the
`Except` results; iterating a truthy non-list `questions` value raises. -/
def validate_and_fix_survey (data : List (String × PyVal)) :
    Except PyErr (List (String × PyVal)) :=
  let f3 := vafsDefaults data
  match coerceArea ((pyGet f3 "area_type").getD (PyVal.str "Rural")) with
  | Except.error e => Except.error e
  | Except.ok area =>
      let f5 := pySetdefault (pySet f3 "area_type" area) "language"
        (PyVal.str "English")
      let questionsRaw := (pyGet f5 "questions").getD PyVal.none
      let questionsVal :=
        if pyTruthy questionsRaw then questionsRaw else PyVal.list []
      match questionsVal with
      | PyVal.list qs =>
          (match fixQuestions 1 qs with
           | Except.error e => Except.error e
           | Except.ok newQs =>
               Except.ok (pySet f5 "questions"
                 (PyVal.list (newQs.map PyVal.dict))))
      | _ => Except.error PyErr.typeError

/-- Errors of the JSON extractor in `json_utils.py`. -/
inductive JsonErr where
  | noJsonFound
  | malformedJson
deriving Repr, DecidableEq

/-- Embedding of `text.find(c)`: index of the first occurrence, if any. -/
def findIdx (c : Char) : List Char → Option Nat
  | [] => Option.none
  | x :: rest => if x = c then some 0 else (findIdx c rest).map (· + 1)

/-- Embedding of `text.rfind(c)`: index of the last occurrence, if any. -/
def rfindIdx (c : Char) (l : List Char) : Option Nat :=
  match findIdx c l.reverse with
  | some i => some (l.length - 1 - i)
  | Option.none => Option.none

/-- The backtick character (used literally by the fenced-block pattern). -/
def backtick : Char := Char.ofNat 96

/-- Embedding of `re.sub` with the trailing-comma pattern of `extract_json`: drop every
comma that is followed by optional whitespace and a closing brace or
bracket, scanning left to right over non-overlapping matches. -/
def stripCommas : List Char → List Char
  | [] => []
  | c :: rest =>
    if c = ',' then
      match h : rest.dropWhile isPySpace with
      | b :: rem =>
          if b = '}' ∨ b = ']' then
            rest.takeWhile isPySpace ++ b :: stripCommas rem
          else c :: stripCommas rest
      | [] => c :: stripCommas rest
    else c :: stripCommas rest
termination_by l => l.length
decreasing_by
  · have h1 : (rest.dropWhile isPySpace).length ≤ rest.length :=
      (List.dropWhile_suffix isPySpace).length_le
    rw [h] at h1
    simp only [List.length_cons] at h1 ⊢
    omega
  · simp only [List.length_cons]; omega
  · simp only [List.length_cons]; omega
  · simp only [List.length_cons]; omega

/-- Whether a suffix of the text closes the fenced block: optional
whitespace and then three backticks (`\s*` + the closing fence). -/
def closesFence (tail : List Char) : Bool :=
  match tail.dropWhile isPySpace with
  | a :: b :: c :: _ => a = backtick ∧ b = backtick ∧ c = backtick
  | _ => false

/-- The non-greedy group `\{[\s\S]*?\}`: keep consuming body characters up
to the first closing brace whose suffix closes the fence. -/
def findGroupEnd : List Char → Option (List Char)
  | [] => Option.none
  | c :: rest =>
      if c = '}' ∧ closesFence rest then some ['}']
      else (findGroupEnd rest).map (fun g => c :: g)

/-- Match the fenced pattern at the start of the text: three backticks,
`json` case-insensitively, `\s*`, then the braced group.  Returns the
group (braces included), i.e. what `extract_json` hands to `json.loads`. -/
def matchFenceAt : List Char → Option (List Char)
  | a :: b :: c :: j :: s :: o :: n :: rest =>
      if a = backtick ∧ b = backtick ∧ c = backtick ∧
         j.toLower = 'j' ∧ s.toLower = 's' ∧ o.toLower = 'o' ∧ n.toLower = 'n' then
        match rest.dropWhile isPySpace with
        | '{' :: body =>
            match findGroupEnd body with
            | some g => some ('{' :: g)
            | Option.none => Option.none
        | _ => Option.none
      else Option.none
  | _ => Option.none

/-- Embedding of `re.search` with the fenced pattern: try each start position from the
left and return the first (leftmost) match's group. -/
def fencedSearchAux : List Char → Option (List Char)
  | [] => Option.none
  | c :: rest =>
      match matchFenceAt (c :: rest) with
      | some g => some g
      | Option.none => fencedSearchAux rest

/-- The fenced-block scan of `extract_json`, on a string. -/
def fencedSearch (text : String) : Option String :=
  (fencedSearchAux text.data).map String.mk

/-- The code-block fallback of `extract_json`: parse the fenced group if
one exists, otherwise raise `ValueError("No JSON object found ...")`. -/
def fencedFallback (loads : String → Except JsonErr PyVal) (cs : List Char) :
    Except JsonErr PyVal :=
  match fencedSearchAux cs with
  | some g => loads (String.mk g)
  | Option.none => Except.error JsonErr.noJsonFound

/-- Embedding of `extract_json` from `json_utils.py`, parameterised by `json.loads`
(an opaque-to-this-module parser returning a value or `MalformedJson`). -/
def extractJson (loads : String → Except JsonErr PyVal) (text : String) :
    Except JsonErr PyVal :=
  let cs := text.data
  match findIdx '{' cs, rfindIdx '}' cs with
  | some s, some e =>
      if e ≤ s then fencedFallback loads cs
      else loads (String.mk (stripCommas ((cs.drop s).take (e + 1 - s))))
  | _, _ => fencedFallback loads cs

/-- Embedding of `v not in [None, "", "SKIPPED"]` from `calculate_quality_score`. -/
def isFilled : PyVal → Bool
  | PyVal.none => false
  | PyVal.str s => ¬(s = "" ∨ s = "SKIPPED")
  | _ => true

/-- Embedding of `calculate_quality_score` as defined identically in `app2.py` and
`main.py`. -/
def calculate_quality_score (responses : List (String × PyVal))
    (duration : ℚ) : ℚ :=
  let totalFields := responses.length
  let filled := (responses.filter (fun kv => isFilled kv.2)).length
  let completeness : ℚ :=
    if totalFields > 0 then (filled : ℚ) / (totalFields : ℚ) else 0
  let timeScore : ℚ :=
    if duration < 10 then 1/2 else if duration > 300 then 7/10 else 1
  completeness * (7/10) + timeScore * (3/10)

/-- A session question as rendered by `show_take_survey`; the fields the
Submit transition reads are `id` and `required` (validation and
classification metadata do not enter the transition). -/
structure SQuestion where
  id : String
  text : String
  qtype : String
  options : List String
  required : Bool
deriving Repr, DecidableEq

/-- The survey fields the Submit transition reads. -/
structure SurveyDoc where
  questions : List SQuestion
  adaptive : Bool
deriving Repr, DecidableEq

/-- Embedding of `st.session_state.current_session`. -/
structure SessionState where
  survey : SurveyDoc
  adaptive_questions : List SQuestion
  current_q : Nat
  responses : List (String × PyVal)
deriving Repr

/-- The emitted response record (identifier and timestamp fields of the
Python record are generated I/O and carry no session-logic content). -/
structure ResponseRecord where
  responses : List (String × PyVal)
  duration : ℚ
  quality_score : ℚ
deriving Repr

/-- Outcome of one Submit click: warning re-posing the same question (the
session is returned untouched), advance, or completion. -/
inductive StepResult where
  | rejected (s : SessionState)
  | advanced (s : SessionState)
  | completed (final : SessionState) (rec : ResponseRecord)
deriving Repr

/-- Python `responses.get(k) == lit` for a string literal. -/
def optEqStr : Option PyVal → String → Bool
  | some (PyVal.str s), t => s = t
  | _, _ => false

/-- The savings follow-up appended by `generate_adaptive_questions`. -/
def adaptiveQ1 : SQuestion :=
  { id := "adaptive_1", text := "What percentage of income do you save?",
    qtype := "select", options := ["<10%", "10-20%", "20-30%", ">30%"],
    required := false }

/-- The unemployment follow-up appended by `generate_adaptive_questions`. -/
def adaptiveQ2 : SQuestion :=
  { id := "adaptive_2", text := "How long have you been unemployed?",
    qtype := "select",
    options := ["<3 months", "3-6 months", "6-12 months", ">1 year"],
    required := false }

/-- Embedding of `generate_adaptive_questions` as defined identically in `app2.py` and
`main.py`: two independent trigger rules over the collected answers. -/
def generate_adaptive_questions (responses : List (String × PyVal)) :
    List SQuestion :=
  let a0 : List SQuestion := []
  let a1 :=
    if optEqStr (pyGet responses "q4") ">1,00,000" ||
       optEqStr (pyGet responses "e2") ">100k"
    then a0 ++ [adaptiveQ1] else a0
  if optEqStr (pyGet responses "q3") "Unemployed" ||
     optEqStr (pyGet responses "e1") "Unemployed"
  then a1 ++ [adaptiveQ2] else a1

/-- The Submit-button handler of `show_take_survey` (identical in
`app2.py` and `main.py`): reads the question at `current_q` from
`survey.questions ++ adaptive_questions`, computes `is_last` against that
pre-submission list, applies the required-answer guard, records the
answer, possibly extends the adaptive list, then advances or completes.
`duration` stands for `now - start_time` at the moment of completion.
When `current_q` is out of range the page renders no Submit control, so
the state cannot change. -/
def submitStep (st : SessionState) (response : PyVal) (duration : ℚ) :
    StepResult :=
  let allQ := st.survey.questions ++ st.adaptive_questions
  match allQ.get? st.current_q with
  | Option.none => StepResult.rejected st
  | some question =>
      let is_last := st.current_q == allQ.length - 1
      if (!pyBeq response PyVal.none) || (!question.required) then
        let responses' := pySet st.responses question.id response
        let adaptive' :=
          if st.survey.adaptive &&
             (st.current_q == st.survey.questions.length - 1) then
            st.adaptive_questions ++ generate_adaptive_questions responses'
          else st.adaptive_questions
        if !is_last then
          StepResult.advanced { st with
            current_q := st.current_q + 1,
            responses := responses',
            adaptive_questions := adaptive' }
        else
          StepResult.completed
            { st with responses := responses', adaptive_questions := adaptive' }
            { responses := responses',
              duration := duration,
              quality_score := calculate_quality_score responses' duration }
      else StepResult.rejected st

/-- Spec-side filled test: a value other than null, the empty string and
the sentinel "SKIPPED" (Response Quality Scorer contract). -/
def specFilled (v : PyVal) : Bool :=
  !(pyBeq v PyVal.none || pyBeq v (PyVal.str "") || pyBeq v (PyVal.str "SKIPPED"))

/-- Spec-side completeness: filled count over total count, 0 for an empty
mapping (Response Quality Scorer contract). -/
def specCompleteness (rs : List (String × PyVal)) : ℚ :=
  if rs.length = 0 then 0
  else ((rs.filter (fun kv => specFilled kv.2)).length : ℚ) / (rs.length : ℚ)

/-- Spec-side time score: 0.5 below 10s, 1.0 from 10s to 300s, 0.7 above
300s (Response Quality Scorer contract). -/
def specTimeScore (d : ℚ) : ℚ :=
  if d < 10 then 1/2 else if d ≤ 300 then 1 else 7/10

theorem isFilled_eq_specFilled (v : PyVal) : isFilled v = specFilled v := by
  cases v <;> simp [isFilled, specFilled, pyBeq]

/-- C8: `calculate_quality_score` returns `0.7*completeness +
0.3*time_score` with completeness and time score as the spec describes
them, the result always lies in `[0, 1]`, and on an empty answers mapping
with duration 60 it returns exactly `0.3`. -/
theorem quality_score_spec (rs : List (String × PyVal)) (d : ℚ) :
    calculate_quality_score rs d
        = 7/10 * specCompleteness rs + 3/10 * specTimeScore d
      ∧ 0 ≤ calculate_quality_score rs d
      ∧ calculate_quality_score rs d ≤ 1
      ∧ calculate_quality_score [] 60 = 3/10 := by
  have hfil : (fun kv : String × PyVal => isFilled kv.2)
      = fun kv : String × PyVal => specFilled kv.2 :=
    funext fun kv => isFilled_eq_specFilled kv.2
  have heq : calculate_quality_score rs d
      = 7/10 * specCompleteness rs + 3/10 * specTimeScore d := by
    unfold calculate_quality_score specCompleteness specTimeScore
    rw [hfil]
    rcases Nat.eq_zero_or_pos rs.length with h0 | h0
    · simp only [h0]
      split_ifs with h1 h2 h3 <;> first | ring1 | linarith
    · have h0' : rs.length ≠ 0 := Nat.pos_iff_ne_zero.mp h0
      simp only [if_pos h0, if_neg h0']
      split_ifs with h1 h2 h3 <;> first | ring1 | linarith
  refine ⟨heq, ?_, ?_, ?_⟩
  · rw [heq]
    have hc0 : 0 ≤ specCompleteness rs := by
      unfold specCompleteness
      split_ifs with h
      · exact le_refl 0
      · positivity
    have ht0 : 0 ≤ specTimeScore d := by
      unfold specTimeScore; split_ifs <;> norm_num
    positivity
  · rw [heq]
    have hc1 : specCompleteness rs ≤ 1 := by
      unfold specCompleteness
      split_ifs with h
      · norm_num
      · rw [div_le_one (by exact_mod_cast Nat.pos_of_ne_zero h)]
        exact_mod_cast List.length_filter_le _ rs
    have hc0 : 0 ≤ specCompleteness rs := by
      unfold specCompleteness
      split_ifs with h
      · exact le_refl 0
      · positivity
    have ht1 : specTimeScore d ≤ 1 := by
      unfold specTimeScore; split_ifs <;> norm_num
    have ht0 : 0 ≤ specTimeScore d := by
      unfold specTimeScore; split_ifs <;> norm_num
    nlinarith
  · norm_num [calculate_quality_score]

/-- The discriminating condition of `extract_json`: first `{` absent, last
`}` absent, or the last `}` at or before the first `{` — exactly when the
code falls back to the fenced-block scan. -/
def fallbackCond (text : String) : Bool :=
  match findIdx '{' text.data, rfindIdx '}' text.data with
  | some s, some e => e ≤ s
  | _, _ => true

/-- Whether the text contains a `{` with a `}` somewhere after it. -/
def hasBracePair (cs : List Char) : Bool :=
  match findIdx '{' cs with
  | some s => (cs.drop (s + 1)).any (fun c => c = '}')
  | Option.none => false

theorem findIdx_lt_length {c : Char} :
    ∀ {l : List Char} {i : Nat}, findIdx c l = some i → i < l.length := by
  intro l
  induction l with
  | nil => intro i h; simp [findIdx] at h
  | cons x rest ih =>
      intro i h
      by_cases hx : x = c
      · simp [findIdx, hx] at h
        simp only [List.length_cons]
        omega
      · simp only [findIdx, if_neg hx, Option.map_eq_some'] at h
        obtain ⟨j, hj, rfl⟩ := h
        have := ih hj
        simp only [List.length_cons]
        omega

theorem findIdx_get {c : Char} :
    ∀ {l : List Char} {i : Nat}, findIdx c l = some i → l.get? i = some c := by
  intro l
  induction l with
  | nil => intro i h; simp [findIdx] at h
  | cons x rest ih =>
      intro i h
      by_cases hx : x = c
      · simp [findIdx, hx] at h
        subst h
        simp [hx]
      · simp only [findIdx, if_neg hx, Option.map_eq_some'] at h
        obtain ⟨j, hj, rfl⟩ := h
        simpa using ih hj

theorem rfindIdx_get {c : Char} {l : List Char} {e : Nat}
    (h : rfindIdx c l = some e) : l.get? e = some c := by
  unfold rfindIdx at h
  cases hf : findIdx c l.reverse with
  | none => rw [hf] at h; simp at h
  | some i =>
      rw [hf] at h
      simp only [Option.some.injEq] at h
      have hlt : i < l.reverse.length := findIdx_lt_length hf
      have hget := findIdx_get hf
      rw [List.length_reverse] at hlt
      rw [List.get?_reverse (by simpa using hlt)] at hget
      rw [← h]
      exact hget

/-- When the discriminating condition holds, `extract_json` runs the
fenced-block fallback. -/
theorem extractJson_fallback_eq (loads : String → Except JsonErr PyVal)
    (text : String) (hcond : fallbackCond text = true) :
    extractJson loads text = fencedFallback loads text.data := by
  unfold extractJson
  unfold fallbackCond at hcond
  cases hf : findIdx '{' text.data with
  | none => simp [hf]
  | some s =>
      cases hr : rfindIdx '}' text.data with
      | none => simp [hf, hr]
      | some e =>
          rw [hf, hr] at hcond
          simp only [decide_eq_true_eq] at hcond
          simp [hf, hr, if_pos hcond]

/-- A missing brace pair forces the discriminating condition. -/
theorem fallbackCond_of_no_pair {text : String}
    (h : hasBracePair text.data = false) : fallbackCond text = true := by
  unfold hasBracePair at h
  unfold fallbackCond
  cases hf : findIdx '{' text.data with
  | none => rfl
  | some s =>
      cases hr : rfindIdx '}' text.data with
      | none => rfl
      | some e =>
          simp only [decide_eq_true_eq]
          by_contra hlt
          push_neg at hlt
          have hget : text.data.get? e = some '}' := rfindIdx_get hr
          have hdrop : (text.data.drop (s + 1)).get? (e - (s + 1)) = some '}' := by
            rw [List.get?_drop]
            rw [show s + 1 + (e - (s + 1)) = e by omega]
            exact hget
          have hmem : '}' ∈ text.data.drop (s + 1) := List.get?_mem hdrop
          have hany : (text.data.drop (s + 1)).any (fun c => c = '}') = true :=
            List.any_of_mem hmem (by simp)
          have hfalse : (text.data.drop (s + 1)).any (fun c => c = '}') = false := by
            rw [hf] at h
            exact h
          rw [hany] at hfalse
          exact Bool.noConfusion hfalse

/-- C7: whenever the first `{` is absent, the last `}` is absent, or the
last `}` is at or before the first `{`, `extract_json` parses the fenced
JSON block's content if such a block exists and otherwise fails with
`NoJsonFound`; in particular any input with no `{`/`}` pair and no fenced
JSON block yields `NoJsonFound`. -/
theorem extractJson_fallback_spec (loads : String → Except JsonErr PyVal)
    (text : String) :
    (fallbackCond text = true →
      (∀ inner, fencedSearch text = some inner →
          extractJson loads text = loads inner)
      ∧ (fencedSearch text = Option.none →
          extractJson loads text = Except.error JsonErr.noJsonFound))
    ∧ (hasBracePair text.data = false → fencedSearch text = Option.none →
        extractJson loads text = Except.error JsonErr.noJsonFound) := by
  have main : fallbackCond text = true →
      (∀ inner, fencedSearch text = some inner →
          extractJson loads text = loads inner)
      ∧ (fencedSearch text = Option.none →
          extractJson loads text = Except.error JsonErr.noJsonFound) := by
    intro hcond
    rw [extractJson_fallback_eq loads text hcond]
    constructor
    · intro inner hfence
      unfold fencedSearch at hfence
      unfold fencedFallback
      cases haux : fencedSearchAux text.data with
      | none => rw [haux] at hfence; simp at hfence
      | some g =>
          rw [haux] at hfence
          simp only [Option.map_some', Option.some.injEq] at hfence
          subst hfence
          rfl
    · intro hfence
      unfold fencedSearch at hfence
      unfold fencedFallback
      cases haux : fencedSearchAux text.data with
      | none => rfl
      | some g => rw [haux] at hfence; simp at hfence
  refine ⟨main, fun hnp hfence => ?_⟩
  exact (main (fallbackCond_of_no_pair hnp)).2 hfence

/-- Closed instance of `extractJson_fallback_spec` at a brace-free,
fence-free input. -/
theorem extractJson_fallback_spec_witness :
    extractJson (fun s => Except.ok (PyVal.str s)) "no json here"
      = Except.error JsonErr.noJsonFound :=
  (extractJson_fallback_spec (fun s => Except.ok (PyVal.str s))
    "no json here").2 (by decide) (by decide)

theorem pyBeq_none_iff (v : PyVal) : pyBeq v PyVal.none = true ↔ v = PyVal.none := by
  cases v <;> simp [pyBeq]

/-- C9: a Submit with an absent answer at a required question is rejected
and the session value is returned untouched, so the same question is
re-posed. -/
theorem submit_required_missing_rejected (st : SessionState) (dur : ℚ)
    (q : SQuestion)
    (hq : (st.survey.questions ++ st.adaptive_questions)[st.current_q]?
            = some q)
    (hreq : q.required = true) :
    submitStep st PyVal.none dur = StepResult.rejected st := by
  simp [submitStep, hq, hreq, pyBeq]

/-- Closed instance of `submit_required_missing_rejected`. -/
theorem submit_required_missing_rejected_witness :
    submitStep
      { survey := { questions := [{ id := "q1", text := "Age?",
                                    qtype := "number", options := [],
                                    required := true }],
                    adaptive := false },
        adaptive_questions := [], current_q := 0, responses := [] }
      PyVal.none 30
      = StepResult.rejected
          { survey := { questions := [{ id := "q1", text := "Age?",
                                        qtype := "number", options := [],
                                        required := true }],
                        adaptive := false },
            adaptive_questions := [], current_q := 0, responses := [] } :=
  submit_required_missing_rejected _ 30 _ rfl rfl

/-- C10: a Submit whose answer is the empty string is accepted even at a
required question — the empty string is recorded under the question's id
and the session advances or completes; only the answer `None` can trip
the required-question guard. -/
theorem submit_empty_string_accepted (st : SessionState) (dur : ℚ)
    (q : SQuestion)
    (hq : (st.survey.questions ++ st.adaptive_questions)[st.current_q]?
            = some q) :
    ((∃ s', submitStep st (PyVal.str "") dur = StepResult.advanced s'
        ∧ s'.responses = pySet st.responses q.id (PyVal.str "")
        ∧ s'.current_q = st.current_q + 1)
     ∨ (∃ fin rec,
          submitStep st (PyVal.str "") dur = StepResult.completed fin rec
          ∧ rec.responses = pySet st.responses q.id (PyVal.str "")))
    ∧ ∀ v, v ≠ PyVal.none →
        ∀ s0, submitStep st v dur ≠ StepResult.rejected s0 := by
  constructor
  · by_cases hlast :
        st.current_q = (st.survey.questions ++ st.adaptive_questions).length - 1
    · right
      simp only [submitStep, List.get?_eq_getElem?, hq]
      simp only [List.length_append] at hlast
      simp [pyBeq, hlast]
      exact ⟨_, _, ⟨rfl, rfl⟩, rfl⟩
    · left
      simp only [submitStep, List.get?_eq_getElem?, hq]
      simp only [List.length_append] at hlast
      simp [pyBeq, hlast]
  · intro v hv s0
    have hb : pyBeq v PyVal.none = false := by
      rcases Bool.eq_false_or_eq_true (pyBeq v PyVal.none) with h | h
      · exact absurd ((pyBeq_none_iff v).mp h) hv
      · exact h
    simp only [submitStep, List.get?_eq_getElem?, hq, hb, Bool.not_false,
      Bool.true_or, if_true]
    split <;> simp

/-- Question used to instantiate `submit_empty_string_accepted`. -/
def emptyAnswerDemoQ : SQuestion :=
  { id := "d2", text := "What is your gender?", qtype := "select",
    options := ["Male", "Female", "Other"], required := true }

/-- One-question session used to instantiate `submit_empty_string_accepted`. -/
def emptyAnswerDemoSession : SessionState :=
  { survey := { questions := [emptyAnswerDemoQ], adaptive := false },
    adaptive_questions := [], current_q := 0, responses := [] }

/-- Closed instance of `submit_empty_string_accepted`. -/
theorem submit_empty_string_accepted_witness :
    (∃ s', submitStep emptyAnswerDemoSession (PyVal.str "") 30
              = StepResult.advanced s'
        ∧ s'.responses = pySet emptyAnswerDemoSession.responses
            emptyAnswerDemoQ.id (PyVal.str "")
        ∧ s'.current_q = emptyAnswerDemoSession.current_q + 1)
     ∨ (∃ fin rec,
          submitStep emptyAnswerDemoSession (PyVal.str "") 30
              = StepResult.completed fin rec
          ∧ rec.responses = pySet emptyAnswerDemoSession.responses
              emptyAnswerDemoQ.id (PyVal.str "")) :=
  (submit_empty_string_accepted emptyAnswerDemoSession 30 emptyAnswerDemoQ
    rfl).1

/-- The gender question of the sample adaptive survey. -/
def adaptiveDemoQ2 : SQuestion :=
  { id := "q2", text := "What is your gender?", qtype := "select",
    options := ["Male", "Female", "Other", "Prefer not to say"],
    required := true }

/-- The employment-status question of the sample adaptive survey (its
"Unemployed" answer is an adaptive trigger). -/
def adaptiveDemoQ3 : SQuestion :=
  { id := "q3", text := "What is your employment status?", qtype := "select",
    options := ["Employed", "Self-Employed", "Unemployed", "Student",
                "Retired"],
    required := true }

/-- A 2-question adaptive survey session poised at its last base
question, with the first answer already recorded. -/
def adaptiveDemoSession : SessionState :=
  { survey := { questions := [adaptiveDemoQ2, adaptiveDemoQ3],
                adaptive := true },
    adaptive_questions := [], current_q := 1,
    responses := [("q2", PyVal.str "Female")] }

/-- C1: submitting the adaptive-triggering answer at the last base
question of the sample 2-question adaptive survey makes the Submit
handler append the generated follow-up question to the session, yet —
because `is_last` was computed against the pre-extension list — it
transitions to Completed and emits the ResponseRecord in the same step,
so the appended question (index 2 of the now 3-question list) is never
presented.  This exhibits the divergence from the specified behaviour. -/
theorem adaptive_extension_lost_at_completion :
    ∃ fin rec,
      submitStep adaptiveDemoSession (PyVal.str "Unemployed") 45
          = StepResult.completed fin rec
      ∧ fin.adaptive_questions = [adaptiveQ2]
      ∧ adaptiveDemoSession.current_q + 1
          < (fin.survey.questions ++ fin.adaptive_questions).length := by
  refine ⟨_, _, rfl, rfl, ?_⟩
  decide

theorem pyGet_pySet_self (d : List (String × PyVal)) (k : String) (v : PyVal) :
    pyGet (pySet d k v) k = some v := by
  induction d with
  | nil => simp [pySet, pyGet]
  | cons kv rest ih =>
      obtain ⟨k', v'⟩ := kv
      by_cases h : k' = k
      · simp [pySet, pyGet, h]
      · simp [pySet, pyGet, h, ih]

theorem pyGet_pySet_ne (d : List (String × PyVal)) (k : String) (v : PyVal)
    (k' : String) (h : k ≠ k') : pyGet (pySet d k v) k' = pyGet d k' := by
  induction d with
  | nil => simp [pySet, pyGet, h]
  | cons kv rest ih =>
      obtain ⟨k0, v0⟩ := kv
      by_cases h0 : k0 = k
      · subst h0
        simp [pySet, pyGet, h]
      · simp [pySet, pyGet, h0, ih]

theorem pySet_same (d : List (String × PyVal)) (k : String) (v : PyVal)
    (h : pyGet d k = some v) : pySet d k v = d := by
  induction d with
  | nil => simp [pyGet] at h
  | cons kv rest ih =>
      obtain ⟨k0, v0⟩ := kv
      by_cases h0 : k0 = k
      · subst h0
        simp [pyGet] at h
        simp [pySet, h]
      · simp [pyGet, h0] at h
        simp [pySet, h0, ih h]

theorem pySetdefault_of_isSome (d : List (String × PyVal)) (k : String)
    (v : PyVal) (h : (pyGet d k).isSome) : pySetdefault d k v = d := by
  simp [pySetdefault, h]

theorem pyGet_append_sngl (d : List (String × PyVal)) (k k' : String)
    (v : PyVal) :
    pyGet (d ++ [(k, v)]) k'
      = match pyGet d k' with
        | some w => some w
        | Option.none => if k = k' then some v else Option.none := by
  induction d with
  | nil => simp [pyGet]
  | cons kv rest ih =>
      obtain ⟨k0, v0⟩ := kv
      by_cases h0 : k0 = k'
      · simp [pyGet, h0]
      · simp [pyGet, h0, ih]

theorem pyGet_pySetdefault_self (d : List (String × PyVal)) (k : String)
    (v : PyVal) :
    pyGet (pySetdefault d k v) k = some ((pyGet d k).getD v) := by
  unfold pySetdefault
  cases h : pyGet d k with
  | some w => simp [h]
  | none => simp [h, pyGet_append_sngl]

theorem pyGet_pySetdefault_ne (d : List (String × PyVal)) (k : String)
    (v : PyVal) (k' : String) (h : k ≠ k') :
    pyGet (pySetdefault d k v) k' = pyGet d k' := by
  unfold pySetdefault
  cases hg : (pyGet d k).isSome with
  | true => simp
  | false =>
      simp only [Bool.false_eq_true, if_false]
      rw [pyGet_append_sngl]
      cases hk' : pyGet d k' with
      | some w => simp
      | none => simp [h]

theorem pyBeq_str_right {s : String} {x : PyVal}
    (h : pyBeq (PyVal.str s) x = true) : x = PyVal.str s := by
  cases x <;> simp [pyBeq] at h ⊢
  exact h.symm

theorem mem_of_pyMem_str {s : String} {l : List PyVal}
    (h : pyMem (PyVal.str s) l = true) : PyVal.str s ∈ l := by
  unfold pyMem at h
  rw [List.any_eq_true] at h
  obtain ⟨x, hx, hb⟩ := h
  rw [pyBeq_str_right hb] at hx
  exact hx

theorem padStep_length_le (acc : List PyVal) (o : PyVal) :
    acc.length ≤ (padStep acc o).length := by
  unfold padStep
  split_ifs <;> simp

theorem padStep_length_le_three (acc : List PyVal) (o : PyVal)
    (h : acc.length ≤ 3) : (padStep acc o).length ≤ 3 := by
  unfold padStep
  split_ifs with h1 h2 <;> simp_all <;> omega

theorem padStep_mem_or_three (acc : List PyVal) (o : PyVal)
    (ho : pyBeq o o = true) :
    pyMem o (padStep acc o) = true ∨ 3 ≤ (padStep acc o).length := by
  unfold padStep
  split_ifs with h1 h2
  · right; exact h1
  · left; exact h2
  · left
    simp [pyMem, List.any_append, ho]

theorem padStep_mem_mono (acc : List PyVal) (o x : PyVal)
    (h : pyMem x acc = true) : pyMem x (padStep acc o) = true := by
  unfold padStep
  split_ifs with h1 h2
  · exact h
  · exact h
  · simp only [pyMem, List.any_append] at h ⊢
    simp [h]

theorem padOptions_length_eq_three (xs : List PyVal) (h : xs.length < 3) :
    (padOptions xs).length = 3 := by
  have he : padOptions xs
      = padStep (padStep (padStep xs (PyVal.str "Yes")) (PyVal.str "No"))
          (PyVal.str "Not sure") := rfl
  set a1 := padStep xs (PyVal.str "Yes") with ha1
  set a2 := padStep a1 (PyVal.str "No") with ha2
  set a3 := padStep a2 (PyVal.str "Not sure") with ha3
  have hub1 : a1.length ≤ 3 := padStep_length_le_three _ _ (by omega)
  have hub2 : a2.length ≤ 3 := padStep_length_le_three _ _ hub1
  have hub3 : a3.length ≤ 3 := padStep_length_le_three _ _ hub2
  have hm1 : a1.length ≤ a2.length := padStep_length_le _ _
  have hm2 : a2.length ≤ a3.length := padStep_length_le _ _
  rw [he]
  by_contra hne
  have hl : a3.length < 3 := by omega
  have hy : pyMem (PyVal.str "Yes") a3 = true := by
    rcases padStep_mem_or_three xs (PyVal.str "Yes") (by simp [pyBeq]) with hm | hm
    · exact padStep_mem_mono _ _ _ (padStep_mem_mono _ _ _ hm)
    · rw [← ha1] at hm; omega
  have hn : pyMem (PyVal.str "No") a3 = true := by
    rcases padStep_mem_or_three a1 (PyVal.str "No") (by simp [pyBeq]) with hm | hm
    · exact padStep_mem_mono _ _ _ hm
    · rw [← ha2] at hm; omega
  have hs : pyMem (PyVal.str "Not sure") a3 = true := by
    rcases padStep_mem_or_three a2 (PyVal.str "Not sure") (by simp [pyBeq])
      with hm | hm
    · exact hm
    · rw [← ha3] at hm; omega
  have hsub : [PyVal.str "Yes", PyVal.str "No", PyVal.str "Not sure"] ⊆ a3 := by
    intro x hx
    simp only [List.mem_cons, List.not_mem_nil, or_false] at hx
    rcases hx with rfl | rfl | rfl
    · exact mem_of_pyMem_str hy
    · exact mem_of_pyMem_str hn
    · exact mem_of_pyMem_str hs
  have hnd : ([PyVal.str "Yes", PyVal.str "No", PyVal.str "Not sure"]
      : List PyVal).Nodup := by simp
  have := (hnd.subperm hsub).length_le
  simp at this
  omega

theorem fixChoiceOpts_length (v : PyVal) :
    3 ≤ (fixChoiceOpts v).length ∧ (fixChoiceOpts v).length ≤ 6 := by
  simp only [fixChoiceOpts]
  cases hw : (if pyTruthy v = true then v else PyVal.list []) with
  | list xs =>
      by_cases h3 : xs.length < 3
      · have hp := padOptions_length_eq_three xs h3
        have h36 : ¬((padOptions xs).length > 6) := by omega
        simp only [if_pos h3, if_neg h36]
        omega
      · simp only [if_neg h3]
        push_neg at h3
        by_cases h6 : xs.length > 6
        · simp only [if_pos h6, List.length_take]
          constructor <;> omega
        · simp only [if_neg h6]
          constructor <;> omega
  | none => simp [optionPool]
  | bool b => simp [optionPool]
  | int n => simp [optionPool]
  | str s => simp [optionPool]
  | dict kvs => simp [optionPool]

theorem fixChoiceOpts_of_ok (opts : List PyVal) (h3 : 3 ≤ opts.length)
    (h6 : opts.length ≤ 6) : fixChoiceOpts (PyVal.list opts) = opts := by
  have ht : pyTruthy (PyVal.list opts) = true := by
    cases opts with
    | nil => simp at h3
    | cons a rest => simp [pyTruthy]
  unfold fixChoiceOpts
  simp only [ht, if_true]
  have h3' : ¬opts.length < 3 := by omega
  have h6' : ¬opts.length > 6 := by omega
  simp [h3', h6']

theorem builtQ_type (kvs0 : List (String × PyVal)) (idv tv qtype optv : PyVal) :
    pyGet (pySet (pySet (pySetdefault (pySetdefault kvs0 "id" idv) "text" tv)
        "type" qtype) "options" optv) "type" = some qtype := by
  rw [pyGet_pySet_ne _ _ _ _ (by decide), pyGet_pySet_self]

theorem builtQ_options (kvs0 : List (String × PyVal))
    (idv tv qtype optv : PyVal) :
    pyGet (pySet (pySet (pySetdefault (pySetdefault kvs0 "id" idv) "text" tv)
        "type" qtype) "options" optv) "options" = some optv :=
  pyGet_pySet_self _ _ _

theorem builtQ_id (kvs0 : List (String × PyVal)) (idv tv qtype optv : PyVal) :
    pyGet (pySet (pySet (pySetdefault (pySetdefault kvs0 "id" idv) "text" tv)
        "type" qtype) "options" optv) "id"
      = some ((pyGet kvs0 "id").getD idv) := by
  rw [pyGet_pySet_ne _ _ _ _ (by decide), pyGet_pySet_ne _ _ _ _ (by decide),
    pyGet_pySetdefault_ne _ _ _ _ (by decide), pyGet_pySetdefault_self]

theorem builtQ_text (kvs0 : List (String × PyVal))
    (idv tv qtype optv : PyVal) :
    pyGet (pySet (pySet (pySetdefault (pySetdefault kvs0 "id" idv) "text" tv)
        "type" qtype) "options" optv) "text"
      = some ((pyGet (pySetdefault kvs0 "id" idv) "text").getD tv) := by
  rw [pyGet_pySet_ne _ _ _ _ (by decide), pyGet_pySet_ne _ _ _ _ (by decide),
    pyGet_pySetdefault_self]

theorem fixQuestion_props (i : Nat) (q : PyVal) (kvs : List (String × PyVal))
    (h : fixQuestion i q = Except.ok kvs) :
    ∃ t, pyGet kvs "type" = some t ∧ isValidType t = true ∧
      (isChoice t = true →
        ∃ opts, pyGet kvs "options" = some (PyVal.list opts)
          ∧ 3 ≤ opts.length ∧ opts.length ≤ 6) ∧
      (isChoice t = false → pyGet kvs "options" = some PyVal.none) ∧
      (pyGet kvs "id").isSome = true ∧ (pyGet kvs "text").isSome = true := by
  cases q with
  | none => simp [fixQuestion] at h
  | bool b => simp [fixQuestion] at h
  | int n => simp [fixQuestion] at h
  | str s => simp [fixQuestion] at h
  | list xs => simp [fixQuestion] at h
  | dict kvs0 =>
      simp only [fixQuestion] at h
      split at h <;> split at h <;>
        rename_i hv hc <;>
        simp only [Except.ok.injEq] at h <;>
        subst h
      · exact ⟨_, builtQ_type _ _ _ _ _, hv,
          fun _ => ⟨_, builtQ_options _ _ _ _ _,
            (fixChoiceOpts_length _).1, (fixChoiceOpts_length _).2⟩,
          fun hcf => absurd (hcf ▸ hc) (by simp),
          by rw [builtQ_id]; rfl, by rw [builtQ_text]; rfl⟩
      · exact ⟨_, builtQ_type _ _ _ _ _, hv,
          fun hct => absurd (hct ▸ hc) (by simp),
          fun _ => builtQ_options _ _ _ _ _,
          by rw [builtQ_id]; rfl, by rw [builtQ_text]; rfl⟩
      · exact ⟨_, builtQ_type _ _ _ _ _, by decide,
          fun _ => ⟨_, builtQ_options _ _ _ _ _,
            (fixChoiceOpts_length _).1, (fixChoiceOpts_length _).2⟩,
          fun hcf => absurd (hcf ▸ hc) (by simp),
          by rw [builtQ_id]; rfl, by rw [builtQ_text]; rfl⟩
      · exact ⟨_, builtQ_type _ _ _ _ _, by decide,
          fun hct => absurd (hct ▸ hc) (by simp),
          fun _ => builtQ_options _ _ _ _ _,
          by rw [builtQ_id]; rfl, by rw [builtQ_text]; rfl⟩

theorem fixQuestion_built (j : Nat) (kvs : List (String × PyVal))
    (qtype : PyVal)
    (htype : pyGet kvs "type" = some qtype)
    (hvalid : isValidType qtype = true)
    (hid : (pyGet kvs "id").isSome = true)
    (htext : (pyGet kvs "text").isSome = true)
    (hch : isChoice qtype = true →
      ∃ opts, pyGet kvs "options" = some (PyVal.list opts)
        ∧ 3 ≤ opts.length ∧ opts.length ≤ 6)
    (hnch : isChoice qtype = false → pyGet kvs "options" = some PyVal.none) :
    fixQuestion j (PyVal.dict kvs) = Except.ok kvs := by
  simp only [fixQuestion]
  rw [pySetdefault_of_isSome _ _ _ hid]
  rw [pySetdefault_of_isSome _ _ _ htext]
  rw [htype]
  simp only [Option.getD_some, hvalid, if_true]
  rw [pySet_same _ _ _ htype]
  by_cases hc : isChoice qtype = true
  · obtain ⟨opts, hops, h3, h6⟩ := hch hc
    simp only [hc, if_true]
    rw [hops]
    simp only [Option.getD_some]
    rw [fixChoiceOpts_of_ok opts h3 h6]
    rw [pySet_same _ _ _ hops]
  · have hcf : isChoice qtype = false := by
      rcases Bool.eq_false_or_eq_true (isChoice qtype) with hx | hx
      · exact absurd hx hc
      · exact hx
    simp only [hcf, Bool.false_eq_true, if_false]
    rw [pySet_same _ _ _ (hnch hcf)]

theorem fixQuestion_idem (i j : Nat) (q : PyVal) (kvs : List (String × PyVal))
    (h : fixQuestion i q = Except.ok kvs) :
    fixQuestion j (PyVal.dict kvs) = Except.ok kvs := by
  obtain ⟨t, htype, hvalid, hch, hnch, hid, htext⟩ := fixQuestion_props i q kvs h
  exact fixQuestion_built j kvs t htype hvalid hid htext hch hnch

theorem fixQuestions_length :
    ∀ (i : Nat) (qs : List PyVal) (l : List (List (String × PyVal))),
      fixQuestions i qs = Except.ok l → l.length = qs.length := by
  intro i qs
  induction qs generalizing i with
  | nil =>
      intro l h
      simp only [fixQuestions, Except.ok.injEq] at h
      subst h
      rfl
  | cons q rest ih =>
      intro l h
      simp only [fixQuestions] at h
      cases hq : fixQuestion i q with
      | error e => rw [hq] at h; exact Except.noConfusion h
      | ok q' =>
          rw [hq] at h
          cases hr : fixQuestions (i + 1) rest with
          | error e => rw [hr] at h; exact Except.noConfusion h
          | ok rest' =>
              rw [hr] at h
              have h' : q' :: rest' = l := by
                have hh : (Except.ok (q' :: rest') : Except PyErr _)
                    = Except.ok l := h
                simpa using hh
              subst h'
              simp [ih (i + 1) rest' hr]

theorem fixQuestions_mem :
    ∀ (i : Nat) (qs : List PyVal) (l : List (List (String × PyVal))),
      fixQuestions i qs = Except.ok l →
      ∀ kvs ∈ l, ∃ j q, fixQuestion j q = Except.ok kvs := by
  intro i qs
  induction qs generalizing i with
  | nil =>
      intro l h kvs hk
      simp only [fixQuestions, Except.ok.injEq] at h
      subst h
      simp at hk
  | cons q rest ih =>
      intro l h kvs hk
      simp only [fixQuestions] at h
      cases hq : fixQuestion i q with
      | error e => rw [hq] at h; exact Except.noConfusion h
      | ok q' =>
          rw [hq] at h
          cases hr : fixQuestions (i + 1) rest with
          | error e => rw [hr] at h; exact Except.noConfusion h
          | ok rest' =>
              rw [hr] at h
              have h' : q' :: rest' = l := by
                have hh : (Except.ok (q' :: rest') : Except PyErr _)
                    = Except.ok l := h
                simpa using hh
              subst h'
              rcases List.mem_cons.mp hk with rfl | hk'
              · exact ⟨i, q, hq⟩
              · exact ih (i + 1) rest' hr kvs hk'

theorem fixQuestions_idem :
    ∀ (i : Nat) (qs : List PyVal) (l : List (List (String × PyVal))),
      fixQuestions i qs = Except.ok l →
      fixQuestions i (l.map PyVal.dict) = Except.ok l := by
  intro i qs
  induction qs generalizing i with
  | nil =>
      intro l h
      simp only [fixQuestions, Except.ok.injEq] at h
      subst h
      rfl
  | cons q rest ih =>
      intro l h
      simp only [fixQuestions] at h
      cases hq : fixQuestion i q with
      | error e => rw [hq] at h; exact Except.noConfusion h
      | ok q' =>
          rw [hq] at h
          cases hr : fixQuestions (i + 1) rest with
          | error e => rw [hr] at h; exact Except.noConfusion h
          | ok rest' =>
              rw [hr] at h
              have h' : q' :: rest' = l := by
                have hh : (Except.ok (q' :: rest') : Except PyErr _)
                    = Except.ok l := h
                simpa using hh
              subst h'
              simp only [List.map_cons, fixQuestions]
              rw [fixQuestion_idem i i q q' hq]
              rw [ih (i + 1) rest' hr]
              rfl

/-- The `questions = fixed.get("questions") or []` read of
`validate_and_fix_survey`, expressed against the raw input mapping. -/
def rawQuestions (d : List (String × PyVal)) : PyVal :=
  let qr := (pyGet d "questions").getD PyVal.none
  if pyTruthy qr then qr else PyVal.list []

theorem pyGet_vafsDefaults_area (d : List (String × PyVal)) :
    pyGet (vafsDefaults d) "area_type" = pyGet d "area_type" := by
  unfold vafsDefaults
  rw [pyGet_pySetdefault_ne _ _ _ _ (by decide),
    pyGet_pySetdefault_ne _ _ _ _ (by decide),
    pyGet_pySetdefault_ne _ _ _ _ (by decide)]

theorem pyGet_vafsDefaults_questions (d : List (String × PyVal)) :
    pyGet (vafsDefaults d) "questions" = pyGet d "questions" := by
  unfold vafsDefaults
  rw [pyGet_pySetdefault_ne _ _ _ _ (by decide),
    pyGet_pySetdefault_ne _ _ _ _ (by decide),
    pyGet_pySetdefault_ne _ _ _ _ (by decide)]

theorem vafs_ok_elim (d out : List (String × PyVal))
    (h : validate_and_fix_survey d = Except.ok out) :
    ∃ area qs newQs,
      coerceArea ((pyGet d "area_type").getD (PyVal.str "Rural"))
          = Except.ok area
      ∧ rawQuestions d = PyVal.list qs
      ∧ fixQuestions 1 qs = Except.ok newQs
      ∧ out = pySet
          (pySetdefault (pySet (vafsDefaults d) "area_type" area) "language"
            (PyVal.str "English"))
          "questions" (PyVal.list (newQs.map PyVal.dict)) := by
  simp only [validate_and_fix_survey] at h
  rw [pyGet_vafsDefaults_area] at h
  split at h
  · exact Except.noConfusion h
  · rename_i area hc
    rw [pyGet_pySetdefault_ne _ _ _ _ (by decide),
      pyGet_pySet_ne _ _ _ _ (by decide),
      pyGet_vafsDefaults_questions] at h
    split at h
    · rename_i qs hqs
      split at h
      · exact Except.noConfusion h
      · rename_i newQs hnq
        simp only [Except.ok.injEq] at h
        subst h
        exact ⟨area, qs, newQs, hc, hqs, hnq, rfl⟩
    · exact Except.noConfusion h

/-- Whether a value is a Python string. -/
def isStrB : PyVal → Bool
  | PyVal.str _ => true
  | _ => false

/-- Whether a value is a Python dict. -/
def isDictB : PyVal → Bool
  | PyVal.dict _ => true
  | _ => false

/-- The input shapes on which `_coerce_area` cannot raise: `area_type`
absent, falsy, or a string. -/
def areaOk (d : List (String × PyVal)) : Bool :=
  match pyGet d "area_type" with
  | Option.none => true
  | some v => !pyTruthy v || isStrB v

/-- The input shapes on which the question loop cannot raise: `questions`
absent, falsy, or a list of dicts. -/
def questionsOk (d : List (String × PyVal)) : Bool :=
  match pyGet d "questions" with
  | Option.none => true
  | some v => !pyTruthy v ||
      match v with
      | PyVal.list qs => qs.all isDictB
      | _ => false

theorem coerceArea_ok_of (v : PyVal) (hv : (!pyTruthy v || isStrB v) = true) :
    ∃ w, coerceArea v = Except.ok w := by
  cases v with
  | str s =>
      unfold coerceArea
      by_cases ht : pyTruthy (PyVal.str s) = true
      · simp only [ht, if_true]
        split_ifs <;> exact ⟨_, rfl⟩
      · rw [if_neg ht]
        split_ifs <;> exact ⟨_, rfl⟩
  | none => exact ⟨_, rfl⟩
  | bool b =>
      have hb : b = false := by simpa [pyTruthy, isStrB] using hv
      subst hb
      exact ⟨_, rfl⟩
  | int n =>
      have hn : n = 0 := by simpa [pyTruthy, isStrB] using hv
      subst hn
      exact ⟨_, rfl⟩
  | list xs =>
      have hx : xs = [] := by simpa [pyTruthy, isStrB, List.isEmpty_iff] using hv
      subst hx
      exact ⟨_, rfl⟩
  | dict kvs =>
      have hx : kvs = [] := by
        simpa [pyTruthy, isStrB, List.isEmpty_iff] using hv
      subst hx
      exact ⟨_, rfl⟩

theorem fixQuestion_dict_ok (i : Nat) (kvs : List (String × PyVal)) :
    ∃ kvs', fixQuestion i (PyVal.dict kvs) = Except.ok kvs' := by
  simp only [fixQuestion]
  split <;> split <;> exact ⟨_, rfl⟩

theorem fixQuestions_ok_of_dicts :
    ∀ (i : Nat) (qs : List PyVal), (∀ q ∈ qs, isDictB q = true) →
      ∃ l, fixQuestions i qs = Except.ok l := by
  intro i qs
  induction qs generalizing i with
  | nil => intro _; exact ⟨[], rfl⟩
  | cons q rest ih =>
      intro hall
      have hd : isDictB q = true := hall q (List.mem_cons_self _ _)
      cases q <;> simp [isDictB] at hd
      rename_i kvs
      obtain ⟨kvs', hk⟩ := fixQuestion_dict_ok i kvs
      obtain ⟨l, hl⟩ := ih (i + 1) (fun x hx => hall x (List.mem_cons_of_mem _ hx))
      refine ⟨kvs' :: l, ?_⟩
      simp only [fixQuestions]
      rw [hk, hl]
      rfl

theorem questionsVal_shape (d : List (String × PyVal))
    (hq : questionsOk d = true) :
    ∃ qs, rawQuestions d = PyVal.list qs ∧ ∀ q ∈ qs, isDictB q = true := by
  unfold questionsOk at hq
  unfold rawQuestions
  cases hg : pyGet d "questions" with
  | none => exact ⟨[], by simp [pyTruthy], by simp⟩
  | some v =>
      rw [hg] at hq
      by_cases ht : pyTruthy v = true
      · simp only [ht, Bool.not_true, Bool.false_or] at hq
        cases v with
        | list qs =>
            refine ⟨qs, by simp [ht], ?_⟩
            simpa [List.all_eq_true] using hq
        | none => simp at hq
        | bool b => simp at hq
        | int n => simp at hq
        | str s => simp at hq
        | dict kvs => simp at hq
      · have ht' : pyTruthy v = false := by
          rcases Bool.eq_false_or_eq_true (pyTruthy v) with hx | hx
          · exact absurd hx ht
          · exact hx
        exact ⟨[], by simp [ht'], by simp⟩

/-- C2 counterexample: a mapping whose `area_type` is the integer 1 makes
`validate_and_fix_survey` raise `AttributeError` inside `_coerce_area`
(`(1).strip()`), so the normaliser is not total on arbitrary mappings. -/
theorem vafs_area_int_raises :
    validate_and_fix_survey [("area_type", PyVal.int 1)]
      = Except.error PyErr.attributeError := rfl

/-- C2 (amended): on every mapping whose `area_type` (when present and
truthy) is a string and whose `questions` (when present and truthy) is a
list of mappings — which covers every shape the normaliser's own repair
rules handle — `validate_and_fix_survey` returns a document and raises
nothing. -/
theorem vafs_total_on_wellformed (d : List (String × PyVal))
    (ha : areaOk d = true) (hq : questionsOk d = true) :
    ∃ out, validate_and_fix_survey d = Except.ok out := by
  have harea : ∃ w, coerceArea ((pyGet d "area_type").getD (PyVal.str "Rural"))
      = Except.ok w := by
    unfold areaOk at ha
    cases hg : pyGet d "area_type" with
    | none => exact coerceArea_ok_of _ (by simp [pyTruthy, isStrB])
    | some v =>
        rw [hg] at ha
        exact coerceArea_ok_of v ha
  obtain ⟨w, hw⟩ := harea
  obtain ⟨qs, hqs, hdicts⟩ := questionsVal_shape d hq
  obtain ⟨l, hl⟩ := fixQuestions_ok_of_dicts 1 qs hdicts
  simp only [rawQuestions] at hqs
  refine ⟨pySet (pySetdefault (pySet (vafsDefaults d) "area_type" w)
      "language" (PyVal.str "English")) "questions"
      (PyVal.list (l.map PyVal.dict)), ?_⟩
  simp only [validate_and_fix_survey, pyGet_vafsDefaults_area, hw]
  rw [pyGet_pySetdefault_ne _ _ _ _ (by decide),
    pyGet_pySet_ne _ _ _ _ (by decide), pyGet_vafsDefaults_questions]
  rw [hqs]
  simp only [hl]

/-- Closed instance of `vafs_total_on_wellformed` at a messy but
well-shaped input. -/
theorem vafs_total_on_wellformed_witness :
    ∃ out, validate_and_fix_survey
        [("area_type", PyVal.none),
         ("questions", PyVal.list [PyVal.dict [("text", PyVal.str "Q?")]])]
      = Except.ok out :=
  vafs_total_on_wellformed _ (by decide) (by decide)

/-- Field access on a normaliser result (`none` when it raised). -/
def okGet (r : Except PyErr (List (String × PyVal))) (k : String) :
    Option PyVal :=
  match r with
  | Except.ok out => pyGet out k
  | Except.error _ => Option.none

theorem coerceArea_falsy {v w : PyVal} (h : coerceArea v = Except.ok w)
    (ht : pyTruthy v = false) : w = PyVal.str "Rural" := by
  unfold coerceArea at h
  rw [if_neg (by simp [ht])] at h
  have e1 : strStartsWith (pyLower (pyStrip "")) "rur" = false := rfl
  have e2 : strStartsWith (pyLower (pyStrip "")) "urb" = false := rfl
  simp only [e1, e2, Bool.false_eq_true, if_false] at h
  rw [if_neg (by simp [ht])] at h
  simpa using h.symm

theorem coerceArea_str {s : String} {w : PyVal}
    (h : coerceArea (PyVal.str s) = Except.ok w) (hs : s ≠ "") :
    (strStartsWith (pyLower (pyStrip s)) "rur" = true → w = PyVal.str "Rural")
    ∧ (strStartsWith (pyLower (pyStrip s)) "rur" = false →
        strStartsWith (pyLower (pyStrip s)) "urb" = true → w = PyVal.str "Urban")
    ∧ (strStartsWith (pyLower (pyStrip s)) "rur" = false →
        strStartsWith (pyLower (pyStrip s)) "urb" = false → w = PyVal.str s) := by
  have ht : pyTruthy (PyVal.str s) = true := by simp [pyTruthy, hs]
  unfold coerceArea at h
  rw [if_pos ht] at h
  refine ⟨?_, ?_, ?_⟩
  · intro h1
    simp only [h1, if_true] at h
    simpa using h.symm
  · intro h1 h2
    simp only [h1, Bool.false_eq_true, if_false, h2, if_true] at h
    simpa using h.symm
  · intro h1 h2
    simp only [h1, h2, Bool.false_eq_true, if_false] at h
    rw [if_pos ht] at h
    simpa using h.symm

theorem coerceArea_idem {v w : PyVal} (h : coerceArea v = Except.ok w) :
    coerceArea w = Except.ok w := by
  by_cases ht : pyTruthy v = true
  · cases v with
    | str s =>
        have hs : s ≠ "" := by simpa [pyTruthy] using ht
        obtain ⟨c1, c2, c3⟩ := coerceArea_str h hs
        by_cases h1 : strStartsWith (pyLower (pyStrip s)) "rur" = true
        · rw [c1 h1]; rfl
        · have h1' : strStartsWith (pyLower (pyStrip s)) "rur" = false := by
            rcases Bool.eq_false_or_eq_true (strStartsWith (pyLower (pyStrip s)) "rur")
              with hx | hx
            · exact absurd hx h1
            · exact hx
          by_cases h2 : strStartsWith (pyLower (pyStrip s)) "urb" = true
          · rw [c2 h1' h2]; rfl
          · have h2' : strStartsWith (pyLower (pyStrip s)) "urb" = false := by
              rcases Bool.eq_false_or_eq_true (strStartsWith (pyLower (pyStrip s)) "urb")
                with hx | hx
              · exact absurd hx h2
              · exact hx
            rw [c3 h1' h2']
            unfold coerceArea
            rw [if_pos (by simp [pyTruthy, hs])]
            simp only [h1', h2', Bool.false_eq_true, if_false]
            rw [if_pos (by simp [pyTruthy, hs])]
    | none => simp [pyTruthy] at ht
    | bool b =>
        unfold coerceArea at h
        rw [if_pos ht] at h
        exact Except.noConfusion h
    | int n =>
        unfold coerceArea at h
        rw [if_pos ht] at h
        exact Except.noConfusion h
    | list xs =>
        unfold coerceArea at h
        rw [if_pos ht] at h
        exact Except.noConfusion h
    | dict kvs =>
        unfold coerceArea at h
        rw [if_pos ht] at h
        exact Except.noConfusion h
  · have ht' : pyTruthy v = false := by
      rcases Bool.eq_false_or_eq_true (pyTruthy v) with hx | hx
      · exact absurd hx ht
      · exact hx
    rw [coerceArea_falsy h ht']
    rfl

theorem vafs_out_area (d out : List (String × PyVal))
    (h : validate_and_fix_survey d = Except.ok out) :
    ∃ area, coerceArea ((pyGet d "area_type").getD (PyVal.str "Rural"))
        = Except.ok area
      ∧ pyGet out "area_type" = some area := by
  obtain ⟨area, qs, newQs, hc, hqs, hnq, hout⟩ := vafs_ok_elim d out h
  refine ⟨area, hc, ?_⟩
  subst hout
  rw [pyGet_pySet_ne _ _ _ _ (by decide),
    pyGet_pySetdefault_ne _ _ _ _ (by decide), pyGet_pySet_self]

/-- C3 counterexample: the input value "Coastal" (truthy, matching
neither prefix) passes through `_coerce_area` unchanged — the normalised
`area_type` is "Coastal", not "Rural", because the fallback is
`return area or "Rural"`, which only replaces falsy values. -/
theorem vafs_area_passthrough_cex :
    okGet (validate_and_fix_survey [("area_type", PyVal.str "Coastal")])
        "area_type" = some (PyVal.str "Coastal")
    ∧ PyVal.str "Coastal" ≠ PyVal.str "Rural"
    ∧ PyVal.str "Coastal" ≠ PyVal.str "Urban" := by
  refine ⟨rfl, ?_, ?_⟩ <;> simp

/-- C3 (amended): on every input the normaliser accepts, the output
`area_type` is "Rural" when the input value is absent or falsy, "Rural"
or "Urban" by case-insensitive prefix match on a trimmed string value,
and the original value unchanged for any other (truthy) string. -/
theorem vafs_area_cases (d out : List (String × PyVal))
    (h : validate_and_fix_survey d = Except.ok out) :
    ∃ v, pyGet out "area_type" = some v
      ∧ ((match pyGet d "area_type" with
          | Option.none => True
          | some a => pyTruthy a = false) → v = PyVal.str "Rural")
      ∧ (∀ s, pyGet d "area_type" = some (PyVal.str s) →
          (strStartsWith (pyLower (pyStrip s)) "rur" = true →
              v = PyVal.str "Rural")
          ∧ (strStartsWith (pyLower (pyStrip s)) "rur" = false →
              strStartsWith (pyLower (pyStrip s)) "urb" = true →
              v = PyVal.str "Urban")
          ∧ (s ≠ "" → strStartsWith (pyLower (pyStrip s)) "rur" = false →
              strStartsWith (pyLower (pyStrip s)) "urb" = false →
              v = PyVal.str s)) := by
  obtain ⟨area, hc, hga⟩ := vafs_out_area d out h
  refine ⟨area, hga, ?_, ?_⟩
  · intro hfalsy
    cases hd : pyGet d "area_type" with
    | none =>
        rw [hd] at hc
        have : coerceArea ((Option.none : Option PyVal).getD (PyVal.str "Rural"))
            = Except.ok (PyVal.str "Rural") := rfl
        rw [this] at hc
        simpa using hc.symm
    | some a =>
        rw [hd] at hfalsy hc
        exact coerceArea_falsy hc hfalsy
  · intro s hd
    rw [hd] at hc
    by_cases hs : s = ""
    · subst hs
      refine ⟨?_, ?_, ?_⟩
      · intro h1; exact absurd h1 (by decide)
      · intro _ h2; exact absurd h2 (by decide)
      · intro hne; exact absurd rfl hne
    · refine ⟨(coerceArea_str hc hs).1, (coerceArea_str hc hs).2.1, ?_⟩
      intro _ h1 h2
      exact (coerceArea_str hc hs).2.2 h1 h2

/-- The normalised survey used to instantiate `vafs_area_cases`. -/
def areaCasesDemoOut : List (String × PyVal) :=
  (validate_and_fix_survey [("area_type", PyVal.str "  URBAN ")]).toOption.getD []

/-- Closed instance of `vafs_area_cases`. -/
theorem vafs_area_cases_witness :
    ∃ v, pyGet areaCasesDemoOut "area_type" = some v
      ∧ ((match pyGet [(("area_type" : String), PyVal.str "  URBAN ")]
              "area_type" with
          | Option.none => True
          | some a => pyTruthy a = false) → v = PyVal.str "Rural")
      ∧ (∀ s, pyGet [(("area_type" : String), PyVal.str "  URBAN ")]
            "area_type" = some (PyVal.str s) →
          (strStartsWith (pyLower (pyStrip s)) "rur" = true →
              v = PyVal.str "Rural")
          ∧ (strStartsWith (pyLower (pyStrip s)) "rur" = false →
              strStartsWith (pyLower (pyStrip s)) "urb" = true →
              v = PyVal.str "Urban")
          ∧ (s ≠ "" → strStartsWith (pyLower (pyStrip s)) "rur" = false →
              strStartsWith (pyLower (pyStrip s)) "urb" = false →
              v = PyVal.str s)) :=
  vafs_area_cases [("area_type", PyVal.str "  URBAN ")] areaCasesDemoOut rfl

/-- C4 counterexample: normalising the empty mapping yields a survey
whose `questions` list is empty — the normaliser never adds questions,
so the non-emptiness invariant fails. -/
theorem vafs_empty_questions_cex :
    okGet (validate_and_fix_survey []) "questions"
      = some (PyVal.list []) := rfl

/-- C4 (amended): the normalised `questions` list has exactly one entry
per entry of the input `questions` list (taken as empty when absent or
falsy); in particular it is non-empty exactly when the input list is. -/
theorem vafs_questions_length (d out : List (String × PyVal))
    (h : validate_and_fix_survey d = Except.ok out) :
    ∃ qs newQs, rawQuestions d = PyVal.list qs
      ∧ pyGet out "questions" = some (PyVal.list newQs)
      ∧ newQs.length = qs.length := by
  obtain ⟨area, qs, newQs, hc, hqs, hnq, hout⟩ := vafs_ok_elim d out h
  refine ⟨qs, newQs.map PyVal.dict, hqs, ?_, ?_⟩
  · subst hout
    exact pyGet_pySet_self _ _ _
  · rw [List.length_map]
    exact fixQuestions_length 1 qs newQs hnq

/-- The normalised survey used to instantiate `vafs_questions_length`. -/
def questionsLenDemoOut : List (String × PyVal) :=
  (validate_and_fix_survey
    [("questions", PyVal.list [PyVal.dict [], PyVal.dict []])]).toOption.getD []

/-- Closed instance of `vafs_questions_length`. -/
theorem vafs_questions_length_witness :
    ∃ qs newQs,
      rawQuestions [(("questions" : String),
          PyVal.list [PyVal.dict [], PyVal.dict []])] = PyVal.list qs
      ∧ pyGet questionsLenDemoOut "questions" = some (PyVal.list newQs)
      ∧ newQs.length = qs.length :=
  vafs_questions_length
    [("questions", PyVal.list [PyVal.dict [], PyVal.dict []])]
    questionsLenDemoOut rfl

/-- C5: in every survey the normaliser returns, each question is a
mapping whose `type` is recorded, with an options list of 3 to 6 entries
when the type is a choice type and a null `options` field otherwise. -/
theorem vafs_choice_options (d out : List (String × PyVal))
    (h : validate_and_fix_survey d = Except.ok out) :
    ∀ l, pyGet out "questions" = some (PyVal.list l) →
      ∀ qv ∈ l, ∃ kvs t, qv = PyVal.dict kvs
        ∧ pyGet kvs "type" = some t
        ∧ (isChoice t = true →
            ∃ opts, pyGet kvs "options" = some (PyVal.list opts)
              ∧ 3 ≤ opts.length ∧ opts.length ≤ 6)
        ∧ (isChoice t = false → pyGet kvs "options" = some PyVal.none) := by
  obtain ⟨area, qs, newQs, hc, hqs, hnq, hout⟩ := vafs_ok_elim d out h
  intro l hl qv hqv
  have hq' : pyGet out "questions"
      = some (PyVal.list (newQs.map PyVal.dict)) := by
    subst hout
    exact pyGet_pySet_self _ _ _
  rw [hq'] at hl
  have hleq : newQs.map PyVal.dict = l := by simpa using hl
  subst hleq
  obtain ⟨kvs, hkmem, hkeq⟩ := List.mem_map.mp hqv
  obtain ⟨j, q0, hfix⟩ := fixQuestions_mem 1 qs newQs hnq kvs hkmem
  obtain ⟨t, htype, hvalid, hch, hnch, _, _⟩ := fixQuestion_props j q0 kvs hfix
  exact ⟨kvs, t, hkeq.symm, htype, hch, hnch⟩

/-- The normalised survey used to instantiate `vafs_choice_options`. -/
def choiceDemoOut : List (String × PyVal) :=
  (validate_and_fix_survey
    [("questions", PyVal.list
        [PyVal.dict [("type", PyVal.str "single-choice"),
                     ("options", PyVal.list [PyVal.str "A"])],
         PyVal.dict [("type", PyVal.str "rating")]])]).toOption.getD []

/-- The question list of `choiceDemoOut`. -/
def choiceDemoL : List PyVal :=
  match pyGet choiceDemoOut "questions" with
  | some (PyVal.list l) => l
  | _ => []

/-- Closed instance of `vafs_choice_options` at the first normalised
question. -/
theorem vafs_choice_options_witness :
    ∃ kvs t, choiceDemoL.headD PyVal.none = PyVal.dict kvs
      ∧ pyGet kvs "type" = some t
      ∧ (isChoice t = true →
          ∃ opts, pyGet kvs "options" = some (PyVal.list opts)
            ∧ 3 ≤ opts.length ∧ opts.length ≤ 6)
      ∧ (isChoice t = false → pyGet kvs "options" = some PyVal.none) :=
  vafs_choice_options
    [("questions", PyVal.list
        [PyVal.dict [("type", PyVal.str "single-choice"),
                     ("options", PyVal.list [PyVal.str "A"])],
         PyVal.dict [("type", PyVal.str "rating")]])]
    choiceDemoOut rfl choiceDemoL rfl (choiceDemoL.headD PyVal.none)
    (List.Mem.head _)

theorem ifTruthyList (L : List PyVal) :
    (if pyTruthy (PyVal.list L) = true then PyVal.list L else PyVal.list [])
      = PyVal.list L := by
  cases L <;> simp [pyTruthy]

/-- C6: `validate_and_fix_survey` is idempotent — renormalising any
document it returns yields the identical document. -/
theorem vafs_idem (d out : List (String × PyVal))
    (h : validate_and_fix_survey d = Except.ok out) :
    validate_and_fix_survey out = Except.ok out := by
  obtain ⟨area, qs, newQs, hc, hqs, hnq, hout⟩ := vafs_ok_elim d out h
  have hQ : pyGet out "questions"
      = some (PyVal.list (newQs.map PyVal.dict)) := by
    rw [hout]
    exact pyGet_pySet_self _ _ _
  have hA : pyGet out "area_type" = some area := by
    rw [hout, pyGet_pySet_ne _ _ _ _ (by decide),
      pyGet_pySetdefault_ne _ _ _ _ (by decide), pyGet_pySet_self]
  have hL : (pyGet out "language").isSome = true := by
    rw [hout, pyGet_pySet_ne _ _ _ _ (by decide), pyGet_pySetdefault_self]
    rfl
  have hT : (pyGet out "title").isSome = true := by
    rw [hout, pyGet_pySet_ne _ _ _ _ (by decide),
      pyGet_pySetdefault_ne _ _ _ _ (by decide),
      pyGet_pySet_ne _ _ _ _ (by decide)]
    unfold vafsDefaults
    rw [pyGet_pySetdefault_ne _ _ _ _ (by decide),
      pyGet_pySetdefault_ne _ _ _ _ (by decide), pyGet_pySetdefault_self]
    rfl
  have hD : (pyGet out "domain").isSome = true := by
    rw [hout, pyGet_pySet_ne _ _ _ _ (by decide),
      pyGet_pySetdefault_ne _ _ _ _ (by decide),
      pyGet_pySet_ne _ _ _ _ (by decide)]
    unfold vafsDefaults
    rw [pyGet_pySetdefault_ne _ _ _ _ (by decide), pyGet_pySetdefault_self]
    rfl
  have hR : (pyGet out "region").isSome = true := by
    rw [hout, pyGet_pySet_ne _ _ _ _ (by decide),
      pyGet_pySetdefault_ne _ _ _ _ (by decide),
      pyGet_pySet_ne _ _ _ _ (by decide)]
    unfold vafsDefaults
    rw [pyGet_pySetdefault_self]
    rfl
  have hdef : vafsDefaults out = out := by
    unfold vafsDefaults
    rw [pySetdefault_of_isSome _ _ _ hT, pySetdefault_of_isSome _ _ _ hD,
      pySetdefault_of_isSome _ _ _ hR]
  simp only [validate_and_fix_survey, hdef, hA, Option.getD_some]
  simp only [coerceArea_idem hc]
  rw [pySet_same _ _ _ hA, pySetdefault_of_isSome _ _ _ hL]
  rw [hQ]
  simp only [Option.getD_some, ifTruthyList]
  simp only [fixQuestions_idem 1 qs newQs hnq]
  rw [pySet_same _ _ _ hQ]

/-- A raw model-style survey used to instantiate `vafs_idem`. -/
def idemDemoIn : List (String × PyVal) :=
  [("area_type", PyVal.str "RURAL"),
   ("questions", PyVal.list [PyVal.dict [("type", PyVal.str "single-choice")]])]

/-- Its normalisation. -/
def idemDemoOut : List (String × PyVal) :=
  (validate_and_fix_survey idemDemoIn).toOption.getD []

/-- Closed instance of `vafs_idem`. -/
theorem vafs_idem_witness :
    validate_and_fix_survey idemDemoOut = Except.ok idemDemoOut :=
  vafs_idem idemDemoIn idemDemoOut rfl
